import Mathlib

/-!
Verification of the Cognitive_Commit study-log persistence core
(`my-study-app/src/main/index.ts`): the save-log, get-logs and
save-config IPC handlers.  JS strings are modelled as Lean `String`
(lists of chars), JS numbers that can be `NaN` as `Option Int`
(`none` = `NaN`), thrown JS values as an explicit `JsErr` record, and
the effectful steps (filesystem, simple-git subprocess calls) as an
explicit world record of per-step outcomes threaded through a pure
transcription of each handler body.
-/

namespace CogCommit

/-- A thrown JS value.  `isError` marks `instanceof Error`; `name` and
`message` are the Error fields (for a non-Error thrown value, `message`
holds its string conversion). -/
structure JsErr where
  isError : Bool
  name : String
  message : String
deriving DecidableEq, Repr

/-- JS `String(e)`: `Error.prototype.toString` yields
`name ++ ": " ++ message` (ECMA-262, both parts nonempty in our runs);
a non-Error value stringifies to itself. -/
def jsErrToString (e : JsErr) : String :=
  if e.isError then e.name ++ ": " ++ e.message else e.message

/-! ## JS regex `.match(/key"(.*?)"/)` extraction (get-logs, lines 295-297)

The three header regexes are `date: "(.*?)"`, `topic: "(.*?)"` and
`duration: "(.*?)"`: a literal key (ending in the opening quote), a lazy
dot-star capture (`.` matches neither `\n` nor `\r`), and a closing
quote.  `scanCapture` transcribes the engine: try the literal at each
position left to right; after the literal matches, the lazy capture
takes the shortest run of non-newline chars ending at a `"`; if no
closing quote occurs on the line the attempt fails and scanning resumes
one char later. -/

/-- Match a literal: if `key` is a prefix of `s`, return the rest. -/
def stripKey : List Char → List Char → Option (List Char)
  | [], s => some s
  | _ :: _, [] => none
  | k :: ks, c :: cs => if k = c then stripKey ks cs else none

/-- Lazy `(.*?)"`: the chars up to the first `"`, failing at a line
terminator or end of input.  JS `.` matches none of the four ECMA-262
LineTerminator chars: `\n`, `\r`, U+2028 LINE SEPARATOR and U+2029
PARAGRAPH SEPARATOR. -/
def captureToQuote : List Char → Option (List Char)
  | [] => none
  | c :: cs =>
    if c = '"' then some []
    else if c = '\n' then none
    else if c = '\r' then none
    else if c = '\u2028' then none
    else if c = '\u2029' then none
    else (captureToQuote cs).map (fun v => c :: v)

/-- Left-to-right regex scan: first position where the key matches and a
capture closes wins. -/
def scanCapture (key : List Char) : List Char → Option (List Char)
  | [] => none
  | c :: cs =>
    match stripKey key (c :: cs) with
    | some r =>
      match captureToQuote r with
      | some v => some v
      | none => scanCapture key cs
    | none => scanCapture key cs

/-- JS `content.match(regex)` returning the first capture group. -/
def matchCapture (key : List Char) (content : String) : Option String :=
  (scanCapture key content.data).map String.mk

/-- The literal part of `/date: "(.*?)"/`. -/
def dateKey : List Char := ['d', 'a', 't', 'e', ':', ' ', '"']

/-- The literal part of `/topic: "(.*?)"/`. -/
def topicKey : List Char := ['t', 'o', 'p', 'i', 'c', ':', ' ', '"']

/-- The literal part of `/duration: "(.*?)"/`. -/
def durationKey : List Char :=
  ['d', 'u', 'r', 'a', 't', 'i', 'o', 'n', ':', ' ', '"']

/-! ## JS `parseInt(v, 10)` (get-logs, line 303) -/

/-- JS whitespace chars skipped by `parseInt` (the ASCII ones;
documents produced by the app contain no exotic whitespace). -/
def jsSpace (c : Char) : Bool :=
  c = ' ' || c = '\t' || c = '\n' || c = '\r' || c = '\x0b' || c = '\x0c'

/-- Numeric value of a decimal digit char. -/
def digitVal (c : Char) : Nat := c.toNat - 48

/-- Value of a digit list, most significant first. -/
def digitsToNat (l : List Char) : Nat :=
  l.foldl (fun a c => a * 10 + digitVal c) 0

/-- The maximal leading run of decimal digits, or `none` if there is
none (`parseInt` then yields `NaN`). -/
def leadDigits (l : List Char) : Option Nat :=
  let d := l.takeWhile Char.isDigit
  if d.isEmpty then none else some (digitsToNat d)

/-- JS `parseInt(s, 10)`: skip whitespace, optional sign, then the maximal
digit prefix; no digits means `NaN`, modelled as `none`. -/
def parseIntJS (s : String) : Option Int :=
  match s.data.dropWhile jsSpace with
  | [] => none
  | c :: r =>
    if c = '-' then (leadDigits r).map (fun m => -(m : Int))
    else if c = '+' then (leadDigits r).map (fun m => (m : Int))
    else (leadDigits (c :: r)).map (fun m => (m : Int))

/-! ## get-logs per-file parse (lines 293-305) -/

/-- One element of the list returned by the get-logs handler.
`duration` is a JS number: `none` models `NaN`. -/
structure LogEntry where
  id : String
  date : String
  topic : String
  duration : Option Int
deriving DecidableEq, Repr

/-- The object built for one file by the get-logs handler: each header
field extracted independently, with defaults `''` / `'Unknown'` / `0`
when the regex does not match, and `parseInt(.., 10)` on the captured
duration text. -/
def parseLog (file content : String) : LogEntry :=
  { id := file
    date := (matchCapture dateKey content).getD ""
    topic := (matchCapture topicKey content).getD "Unknown"
    duration :=
      match matchCapture durationKey content with
      | some v => parseIntJS v
      | none => some 0 }

@[simp] theorem parseLog_id (f c : String) : (parseLog f c).id = f := rfl

/-! ## save-log content template (lines 232-246) -/

/-- The `data` object the renderer sends to the save-log handler.  All
fields are JS strings (the renderer sends `duration` as the raw
`inputMinutes` text). -/
structure SaveData where
  date : String
  topic : String
  duration : String
  acquisition : String
  debt : String
  nextAction : String
deriving DecidableEq, Repr

/-- The Markdown document template written by save-log. -/
def renderContent (d : SaveData) : String :=
  "---\ndate: \"" ++ d.date ++ "\"\ntopic: \"" ++ d.topic ++
    "\"\nduration: \"" ++ d.duration ++ "\"\n---\n\n## Acquisition\n" ++
    d.acquisition ++ "\n\n## Debt\n" ++ d.debt ++ "\n\n## Next Action\n" ++
    d.nextAction ++ "\n"

/-! ## Decimal rendering of a JS integer

`SessionRecord.durationMinutes` is an integer; interpolating it into the
template stringifies it in decimal.  Fuel-based structural recursion so
the kernel can evaluate it. -/

/-- The char of a decimal digit. -/
def decChar (d : Nat) : Char := Char.ofNat (48 + d)

/-- Decimal digits of `n`, most significant first, with explicit fuel. -/
def natDigitsGo : Nat → Nat → List Char
  | 0, _ => []
  | f + 1, n =>
    if n < 10 then [decChar n]
    else natDigitsGo f (n / 10) ++ [decChar (n % 10)]

/-- Decimal digits of `n`, most significant first (JS `String(n)` for a
nonnegative integer). -/
def natDigits (n : Nat) : List Char := natDigitsGo (n + 1) n

theorem natDigitsGo_fuel (f₁ f₂ n : Nat) (h1 : n < f₁) (h2 : n < f₂) :
    natDigitsGo f₁ n = natDigitsGo f₂ n := by
  induction f₁ generalizing f₂ n with
  | zero => omega
  | succ f ih =>
    cases f₂ with
    | zero => omega
    | succ g =>
      simp only [natDigitsGo]
      by_cases hlt : n < 10
      · simp [hlt]
      · simp only [hlt, if_false]
        rw [ih g (n / 10) (by omega) (by omega)]

/-- One-step unfolding of `natDigits`. -/
theorem natDigits_eq (n : Nat) : natDigits n =
    if n < 10 then [decChar n] else natDigits (n / 10) ++ [decChar (n % 10)] := by
  show natDigitsGo (n + 1) n = _
  simp only [natDigitsGo]
  by_cases hlt : n < 10
  · simp [hlt]
  · simp only [hlt, if_false]
    rw [natDigitsGo_fuel n (n / 10 + 1) (n / 10) (by omega) (by omega)]
    rfl

theorem decChar_isDigit {d : Nat} (h : d < 10) : (decChar d).isDigit := by
  interval_cases d <;> decide

theorem digitVal_decChar {d : Nat} (h : d < 10) : digitVal (decChar d) = d := by
  interval_cases d <;> decide

theorem natDigits_all_digit (n : Nat) : ∀ c ∈ natDigits n, c.isDigit := by
  induction n using Nat.strong_induction_on with
  | _ n ih =>
    rw [natDigits_eq]
    by_cases hlt : n < 10
    · simp only [hlt, if_true, List.mem_singleton]
      intro c hc
      subst hc
      exact decChar_isDigit hlt
    · simp only [hlt, if_false, List.mem_append, List.mem_singleton]
      intro c hc
      rcases hc with hc | hc
      · exact ih (n / 10) (Nat.div_lt_self (by omega) (by omega)) c hc
      · subst hc
        exact decChar_isDigit (Nat.mod_lt _ (by omega))

theorem natDigits_nonempty (n : Nat) : natDigits n ≠ [] := by
  rw [natDigits_eq]
  by_cases hlt : n < 10 <;> simp [hlt]

theorem isDigit_not_space {c : Char} (h : c.isDigit) : jsSpace c = false := by
  cases hjs : jsSpace c with
  | false => rfl
  | true =>
    exfalso
    have hd : c = ' ' ∨ c = '\t' ∨ c = '\n' ∨ c = '\r' ∨ c = '\x0b' ∨ c = '\x0c' := by
      have hx := hjs
      unfold jsSpace at hx
      simp only [Bool.or_eq_true, decide_eq_true_eq] at hx
      tauto
    rcases hd with h1 | h1 | h1 | h1 | h1 | h1 <;>
      (subst h1; exact absurd h (by decide))

theorem isDigit_ne {c x : Char} (h : c.isDigit) (hx : ¬ x.isDigit) : c ≠ x := by
  intro hc; subst hc; exact hx h

/-- Folding the digit-accumulator over the decimal digits of `n`. -/
theorem foldl_natDigits (n : Nat) : ∀ a : Nat,
    (natDigits n).foldl (fun a c => a * 10 + digitVal c) a =
      a * 10 ^ (natDigits n).length + n := by
  induction n using Nat.strong_induction_on with
  | _ n ih =>
    intro a
    rw [natDigits_eq]
    by_cases hlt : n < 10
    · simp [hlt, List.foldl, digitVal_decChar hlt]
    · have hd : n / 10 < n := Nat.div_lt_self (by omega) (by omega)
      simp only [hlt, if_false, List.foldl_append, List.foldl, List.length_append,
        List.length_singleton]
      rw [ih (n / 10) hd a]
      have hm : digitVal (decChar (n % 10)) = n % 10 :=
        digitVal_decChar (Nat.mod_lt _ (by omega))
      rw [hm]
      have hdm : 10 * (n / 10) + n % 10 = n := Nat.div_add_mod n 10
      have hp : 10 ^ ((natDigits (n / 10)).length + 1) =
          10 ^ (natDigits (n / 10)).length * 10 := pow_succ 10 _
      rw [hp]
      calc (a * 10 ^ (natDigits (n / 10)).length + n / 10) * 10 + n % 10
          = a * (10 ^ (natDigits (n / 10)).length * 10) + (10 * (n / 10) + n % 10) := by
            ring
        _ = a * (10 ^ (natDigits (n / 10)).length * 10) + n := by rw [hdm]

theorem digitsToNat_natDigits (n : Nat) : digitsToNat (natDigits n) = n := by
  show (natDigits n).foldl (fun a c => a * 10 + digitVal c) 0 = n
  rw [foldl_natDigits n 0]
  simp

theorem takeWhile_all {p : Char → Bool} : ∀ {l : List Char},
    (∀ c ∈ l, p c) → l.takeWhile p = l := by
  intro l
  induction l with
  | nil => intro _; rfl
  | cons c cs ih =>
    intro h
    have hc : p c := h c (by simp)
    rw [List.takeWhile_cons, if_pos hc, ih (fun x hx => h x (by simp [hx]))]

theorem leadDigits_natDigits (n : Nat) : leadDigits (natDigits n) = some n := by
  obtain ⟨c, cs, hc⟩ : ∃ c cs, natDigits n = c :: cs := by
    cases h : natDigits n with
    | nil => exact absurd h (natDigits_nonempty n)
    | cons c cs => exact ⟨c, cs, rfl⟩
  show (if ((natDigits n).takeWhile Char.isDigit).isEmpty then none
        else some (digitsToNat ((natDigits n).takeWhile Char.isDigit))) = some n
  rw [takeWhile_all (natDigits_all_digit n), digitsToNat_natDigits, hc]
  rfl

/-- The `match` equation of `parseIntJS` for a nonempty trimmed input. -/
theorem parseIntJS_cons {c : Char} {r : List Char} {s : String}
    (h : s.data.dropWhile jsSpace = c :: r) :
    parseIntJS s =
      (if c = '-' then (leadDigits r).map (fun m => -(m : Int))
       else if c = '+' then (leadDigits r).map (fun m => (m : Int))
       else (leadDigits (c :: r)).map (fun m => (m : Int))) := by
  unfold parseIntJS
  rw [h]

/-- JS `parseInt(String(n), 10)` recovers any nonnegative integer. -/
theorem parseIntJS_natDigits (n : Nat) :
    parseIntJS (String.mk (natDigits n)) = some (n : Int) := by
  obtain ⟨c, cs, hc⟩ : ∃ c cs, natDigits n = c :: cs := by
    cases h : natDigits n with
    | nil => exact absurd h (natDigits_nonempty n)
    | cons c cs => exact ⟨c, cs, rfl⟩
  have hall := natDigits_all_digit n
  have hcd : c.isDigit := hall c (by rw [hc]; simp)
  have hdrop : (String.mk (natDigits n)).data.dropWhile jsSpace = c :: cs := by
    show (natDigits n).dropWhile jsSpace = c :: cs
    rw [hc, List.dropWhile_cons, isDigit_not_space hcd]
    simp
  have hcm : c ≠ '-' := isDigit_ne hcd (by decide)
  have hcp : c ≠ '+' := isDigit_ne hcd (by decide)
  rw [parseIntJS_cons hdrop, if_neg hcm, if_neg hcp, ← hc, leadDigits_natDigits]
  rfl

/-! ## The spec's SessionRecord (§3) and its rendering -/

/-- A completed study session as the spec's data model describes it:
`durationMinutes` an integer, the three reflection fields free text. -/
structure SessionRecord where
  date : String
  topic : String
  durationMinutes : Nat
  acquisition : String
  debt : String
  nextAction : String
deriving DecidableEq, Repr

/-- The wire form the renderer sends for a record: `durationMinutes`
stringified in decimal, everything else verbatim. -/
def toSaveData (r : SessionRecord) : SaveData :=
  { date := r.date
    topic := r.topic
    duration := String.mk (natDigits r.durationMinutes)
    acquisition := r.acquisition
    debt := r.debt
    nextAction := r.nextAction }

/-- Render a session record with the save-log content template. -/
def renderRecord (r : SessionRecord) : String := renderContent (toSaveData r)


/-! ## Regex scan lemmas for the header round-trip -/

/-- A clean field value: no quote and no ECMA-262 line terminator
(`\n`, `\r`, U+2028, U+2029), so the lazy capture stops exactly at the
wrapping quote. -/
def CleanF (l : List Char) : Prop :=
  ∀ c ∈ l, c ≠ '"' ∧ c ≠ '\n' ∧ c ≠ '\r' ∧ c ≠ ' ' ∧ c ≠ ' '

instance : DecidablePred CleanF := fun l => by unfold CleanF; infer_instance

theorem stripKey_self : ∀ (k s : List Char), stripKey k (k ++ s) = some s := by
  intro k
  induction k with
  | nil => intro s; rfl
  | cons a ks ih =>
    intro s
    show (if a = a then stripKey ks (ks ++ s) else none) = some s
    rw [if_pos rfl, ih s]

theorem captureToQuote_clean : ∀ {v : List Char}, CleanF v →
    ∀ s, captureToQuote (v ++ '"' :: s) = some v := by
  intro v
  induction v with
  | nil => intro _ s; rfl
  | cons c cs ih =>
    intro h s
    obtain ⟨h1, h2, h3, h4, h5⟩ := h c (by simp)
    show (if c = '"' then some [] else if c = '\n' then none
          else if c = '\r' then none
          else if c = '\u2028' then none
          else if c = '\u2029' then none
          else (captureToQuote (cs ++ '"' :: s)).map (fun v => c :: v)) = some (c :: cs)
    rw [if_neg h1, if_neg h2, if_neg h3, if_neg h4, if_neg h5,
      ih (fun x hx => h x (by simp [hx])) s]
    rfl

theorem scanCapture_skip_none {key : List Char} {c : Char} {cs : List Char}
    (h : stripKey key (c :: cs) = none) :
    scanCapture key (c :: cs) = scanCapture key cs := by
  simp only [scanCapture, h]

theorem scanCapture_skip_badcap {key : List Char} {c : Char} {cs r : List Char}
    (h : stripKey key (c :: cs) = some r) (hr : captureToQuote r = none) :
    scanCapture key (c :: cs) = scanCapture key cs := by
  simp only [scanCapture, h, hr]

theorem scanCapture_head (k : Char) (ks v s : List Char) (hv : CleanF v) :
    scanCapture (k :: ks) (k :: (ks ++ (v ++ '"' :: s))) = some v := by
  have h1 : stripKey (k :: ks) (k :: (ks ++ (v ++ '"' :: s))) = some (v ++ '"' :: s) := by
    have h := stripKey_self (k :: ks) (v ++ '"' :: s)
    simpa using h
  simp only [scanCapture, h1, captureToQuote_clean hv]

theorem stripKey_quote : ∀ (k₀ v s : List Char), '"' ∉ k₀ → '"' ∉ v →
    stripKey (k₀ ++ ['"']) (v ++ '"' :: s) = if v = k₀ then some s else none := by
  intro k₀
  induction k₀ with
  | nil =>
    intro v s _ hv
    cases v with
    | nil => rfl
    | cons c v' =>
      have hc : c ≠ '"' := fun h => hv (h ▸ List.mem_cons_self c v')
      show (if '"' = c then stripKey [] (v' ++ '"' :: s) else none) = _
      rw [if_neg (Ne.symm hc), if_neg (by simp)]
  | cons a k' ih =>
    intro v s hk hv
    have ha : a ≠ '"' := fun h => hk (h ▸ List.mem_cons_self a k')
    cases v with
    | nil =>
      show (if a = '"' then stripKey (k' ++ ['"']) s else none) = _
      rw [if_neg ha, if_neg (by simp)]
    | cons c v' =>
      show (if a = c then stripKey (k' ++ ['"']) (v' ++ '"' :: s) else none) = _
      by_cases hac : a = c
      · rw [if_pos hac, ih v' s (fun h => hk (List.mem_cons_of_mem a h))
            (fun h => hv (List.mem_cons_of_mem c h))]
        by_cases hv' : v' = k'
        · rw [if_pos hv', if_pos (by rw [hv', hac])]
        · rw [if_neg hv', if_neg (by simp [hv'])]
      · have hne : ¬ (c :: v' = a :: k') := by
          intro h
          injection h with h1 h2
          exact hac h1.symm
        rw [if_neg hac, if_neg hne]

theorem scanCapture_cross (a : Char) (k' : List Char) (t : List Char)
    (hkq : '"' ∉ a :: k') :
    ∀ v : List Char, (∀ c ∈ v, c ≠ '"') →
    scanCapture ((a :: k') ++ ['"']) (v ++ '"' :: '\n' :: t) =
      scanCapture ((a :: k') ++ ['"']) ('\n' :: t) := by
  have ha : a ≠ '"' := fun h => hkq (h ▸ List.mem_cons_self a k')
  intro v
  induction v with
  | nil =>
    intro _
    apply scanCapture_skip_none
    show (if a = '"' then stripKey (k' ++ ['"']) ('\n' :: t) else none) = none
    rw [if_neg ha]
  | cons c v' ih =>
    intro hv
    have hv' : ∀ x ∈ v', x ≠ '"' := fun x hx => hv x (List.mem_cons_of_mem c hx)
    have hsk := stripKey_quote (a :: k') (c :: v') ('\n' :: t) hkq
      (by intro h; exact absurd rfl (hv '"' h))
    by_cases he : (c :: v') = (a :: k')
    · rw [if_pos he] at hsk
      have hstep : scanCapture ((a :: k') ++ ['"']) (c :: (v' ++ '"' :: '\n' :: t)) =
          scanCapture ((a :: k') ++ ['"']) (v' ++ '"' :: '\n' :: t) :=
        scanCapture_skip_badcap (by simpa using hsk)
          (show captureToQuote ('\n' :: t) = none from rfl)
      calc scanCapture ((a :: k') ++ ['"']) ((c :: v') ++ '"' :: '\n' :: t)
          = scanCapture ((a :: k') ++ ['"']) (v' ++ '"' :: '\n' :: t) := hstep
        _ = scanCapture ((a :: k') ++ ['"']) ('\n' :: t) := ih hv'
    · rw [if_neg he] at hsk
      calc scanCapture ((a :: k') ++ ['"']) ((c :: v') ++ '"' :: '\n' :: t)
          = scanCapture ((a :: k') ++ ['"']) (v' ++ '"' :: '\n' :: t) :=
            scanCapture_skip_none (by simpa using hsk)
        _ = scanCapture ((a :: k') ++ ['"']) ('\n' :: t) := ih hv'

/-! ## Field extraction on the rendered template -/

theorem scanCapture_skip_one (key : List Char) (k a : Char) {ks cs : List Char}
    (hkey : key = k :: ks) (ha : k ≠ a) :
    scanCapture key (a :: cs) = scanCapture key cs := by
  subst hkey
  apply scanCapture_skip_none
  show (if k = a then stripKey ks cs else none) = none
  rw [if_neg ha]

theorem scanCapture_skip_two (key : List Char) (k b a : Char) {ks cs : List Char}
    (hkey : key = k :: b :: ks) (hb : b ≠ a) :
    scanCapture key (k :: a :: cs) = scanCapture key (a :: cs) := by
  subst hkey
  apply scanCapture_skip_none
  show (if k = k then (if b = a then stripKey ks cs else none) else none) = none
  rw [if_pos rfl, if_neg hb]

theorem scanCapture_head' (key : List Char) (k : Char) (ks v s : List Char)
    (hkey : key = k :: ks) (hv : CleanF v) :
    scanCapture key (k :: (ks ++ (v ++ '"' :: s))) = some v := by
  subst hkey
  exact scanCapture_head k ks v s hv

theorem scanCapture_cross' (key : List Char) (a : Char) (k' t : List Char)
    (hkey : key = (a :: k') ++ ['"']) (hkq : '"' ∉ a :: k')
    (v : List Char) (hv : ∀ c ∈ v, c ≠ '"') :
    scanCapture key (v ++ '"' :: '\n' :: t) = scanCapture key ('\n' :: t) := by
  subst hkey
  exact scanCapture_cross a k' t hkq v hv

theorem scan_date_field {dt rest : List Char} (hd : CleanF dt) :
    scanCapture dateKey
      ('-' :: '-' :: '-' :: '\n' :: 'd' :: 'a' :: 't' :: 'e' :: ':' :: ' ' :: '"' ::
        (dt ++ '"' :: rest)) = some dt := by
  rw [scanCapture_skip_one dateKey 'd' '-' rfl (by decide),
      scanCapture_skip_one dateKey 'd' '-' rfl (by decide),
      scanCapture_skip_one dateKey 'd' '-' rfl (by decide),
      scanCapture_skip_one dateKey 'd' '\n' rfl (by decide)]
  exact scanCapture_head' dateKey 'd' ['a', 't', 'e', ':', ' ', '"'] dt rest rfl hd

theorem scan_topic_field {dt tp rest : List Char}
    (hdq : ∀ c ∈ dt, c ≠ '"') (htp : CleanF tp) :
    scanCapture topicKey
      ('-' :: '-' :: '-' :: '\n' :: 'd' :: 'a' :: 't' :: 'e' :: ':' :: ' ' :: '"' ::
        (dt ++ '"' :: '\n' :: 't' :: 'o' :: 'p' :: 'i' :: 'c' :: ':' :: ' ' :: '"' ::
          (tp ++ '"' :: rest))) = some tp := by
  rw [scanCapture_skip_one topicKey 't' '-' rfl (by decide),
      scanCapture_skip_one topicKey 't' '-' rfl (by decide),
      scanCapture_skip_one topicKey 't' '-' rfl (by decide),
      scanCapture_skip_one topicKey 't' '\n' rfl (by decide),
      scanCapture_skip_one topicKey 't' 'd' rfl (by decide),
      scanCapture_skip_one topicKey 't' 'a' rfl (by decide),
      scanCapture_skip_two topicKey 't' 'o' 'e' rfl (by decide),
      scanCapture_skip_one topicKey 't' 'e' rfl (by decide),
      scanCapture_skip_one topicKey 't' ':' rfl (by decide),
      scanCapture_skip_one topicKey 't' ' ' rfl (by decide),
      scanCapture_skip_one topicKey 't' '"' rfl (by decide),
      scanCapture_cross' topicKey 't' ['o', 'p', 'i', 'c', ':', ' '] _ rfl (by decide) dt hdq,
      scanCapture_skip_one topicKey 't' '\n' rfl (by decide)]
  exact scanCapture_head' topicKey 't' ['o', 'p', 'i', 'c', ':', ' ', '"'] tp rest rfl htp

theorem scan_duration_field {dt tp du rest : List Char}
    (hdq : ∀ c ∈ dt, c ≠ '"') (htq : ∀ c ∈ tp, c ≠ '"') (hdu : CleanF du) :
    scanCapture durationKey
      ('-' :: '-' :: '-' :: '\n' :: 'd' :: 'a' :: 't' :: 'e' :: ':' :: ' ' :: '"' ::
        (dt ++ '"' :: '\n' :: 't' :: 'o' :: 'p' :: 'i' :: 'c' :: ':' :: ' ' :: '"' ::
          (tp ++ '"' :: '\n' :: 'd' :: 'u' :: 'r' :: 'a' :: 't' :: 'i' :: 'o' :: 'n' ::
            ':' :: ' ' :: '"' :: (du ++ '"' :: rest)))) = some du := by
  rw [scanCapture_skip_one durationKey 'd' '-' rfl (by decide),
      scanCapture_skip_one durationKey 'd' '-' rfl (by decide),
      scanCapture_skip_one durationKey 'd' '-' rfl (by decide),
      scanCapture_skip_one durationKey 'd' '\n' rfl (by decide),
      scanCapture_skip_two durationKey 'd' 'u' 'a' rfl (by decide),
      scanCapture_skip_one durationKey 'd' 'a' rfl (by decide),
      scanCapture_skip_one durationKey 'd' 't' rfl (by decide),
      scanCapture_skip_one durationKey 'd' 'e' rfl (by decide),
      scanCapture_skip_one durationKey 'd' ':' rfl (by decide),
      scanCapture_skip_one durationKey 'd' ' ' rfl (by decide),
      scanCapture_skip_one durationKey 'd' '"' rfl (by decide),
      scanCapture_cross' durationKey 'd' ['u', 'r', 'a', 't', 'i', 'o', 'n', ':', ' '] _
        rfl (by decide) dt hdq,
      scanCapture_skip_one durationKey 'd' '\n' rfl (by decide),
      scanCapture_skip_one durationKey 'd' 't' rfl (by decide),
      scanCapture_skip_one durationKey 'd' 'o' rfl (by decide),
      scanCapture_skip_one durationKey 'd' 'p' rfl (by decide),
      scanCapture_skip_one durationKey 'd' 'i' rfl (by decide),
      scanCapture_skip_one durationKey 'd' 'c' rfl (by decide),
      scanCapture_skip_one durationKey 'd' ':' rfl (by decide),
      scanCapture_skip_one durationKey 'd' ' ' rfl (by decide),
      scanCapture_skip_one durationKey 'd' '"' rfl (by decide),
      scanCapture_cross' durationKey 'd' ['u', 'r', 'a', 't', 'i', 'o', 'n', ':', ' '] _
        rfl (by decide) tp htq,
      scanCapture_skip_one durationKey 'd' '\n' rfl (by decide)]
  exact scanCapture_head' durationKey 'd' ['u', 'r', 'a', 't', 'i', 'o', 'n', ':', ' ', '"']
    du rest rfl hdu

/-- The rendered document, as the char list the regex engine scans. -/
theorem renderContent_data (d : SaveData) : (renderContent d).data =
    '-' :: '-' :: '-' :: '\n' :: 'd' :: 'a' :: 't' :: 'e' :: ':' :: ' ' :: '"' ::
      (d.date.data ++ '"' :: '\n' :: 't' :: 'o' :: 'p' :: 'i' :: 'c' :: ':' :: ' ' :: '"' ::
      (d.topic.data ++ '"' :: '\n' :: 'd' :: 'u' :: 'r' :: 'a' :: 't' :: 'i' :: 'o' :: 'n' ::
        ':' :: ' ' :: '"' ::
      (d.duration.data ++ '"' :: '\n' :: '-' :: '-' :: '-' :: '\n' :: '\n' :: '#' :: '#' ::
        ' ' :: 'A' :: 'c' :: 'q' :: 'u' :: 'i' :: 's' :: 'i' :: 't' :: 'i' :: 'o' :: 'n' :: '\n' ::
      (d.acquisition.data ++ '\n' :: '\n' :: '#' :: '#' :: ' ' :: 'D' :: 'e' :: 'b' :: 't' :: '\n' ::
      (d.debt.data ++ '\n' :: '\n' :: '#' :: '#' :: ' ' :: 'N' :: 'e' :: 'x' :: 't' :: ' ' ::
        'A' :: 'c' :: 't' :: 'i' :: 'o' :: 'n' :: '\n' ::
      (d.nextAction.data ++ ['\n'])))))) := by
  simp only [renderContent, String.data_append, List.append_assoc]
  rfl

/-! ## C1: the round-trip law -/

theorem natDigits_clean (n : Nat) : CleanF (natDigits n) := fun c hc =>
  have hd := natDigits_all_digit n c hc
  ⟨isDigit_ne hd (by decide), isDigit_ne hd (by decide), isDigit_ne hd (by decide),
   isDigit_ne hd (by decide), isDigit_ne hd (by decide)⟩

theorem string_mk_data (s : String) : String.mk s.data = s := rfl

/-- C1 (amended): for a valid record whose date and topic contain no
quote and no ECMA-262 line terminator (newline, carriage return,
U+2028, U+2029), parsing the rendered document with the get-logs
extraction reproduces the header fields — date, topic and duration —
while the three free-text sections are not extracted at all (the parse
output has no section fields). -/
theorem parse_render_header (f : String) (r : SessionRecord)
    (hd : CleanF r.date.data) (ht : CleanF r.topic.data) :
    parseLog f (renderRecord r) =
      { id := f, date := r.date, topic := r.topic,
        duration := some (r.durationMinutes : Int) } := by
  have hdq : ∀ c ∈ r.date.data, c ≠ '"' := fun c hc => (hd c hc).1
  have htq : ∀ c ∈ r.topic.data, c ≠ '"' := fun c hc => (ht c hc).1
  have hdu : CleanF (natDigits r.durationMinutes) := natDigits_clean r.durationMinutes
  have hdata : (renderContent (toSaveData r)).data =
      '-' :: '-' :: '-' :: '\n' :: 'd' :: 'a' :: 't' :: 'e' :: ':' :: ' ' :: '"' ::
        (r.date.data ++ '"' :: '\n' :: 't' :: 'o' :: 'p' :: 'i' :: 'c' :: ':' :: ' ' :: '"' ::
        (r.topic.data ++ '"' :: '\n' :: 'd' :: 'u' :: 'r' :: 'a' :: 't' :: 'i' :: 'o' :: 'n' ::
          ':' :: ' ' :: '"' ::
        (natDigits r.durationMinutes ++ '"' :: '\n' :: '-' :: '-' :: '-' :: '\n' :: '\n' ::
          '#' :: '#' :: ' ' :: 'A' :: 'c' :: 'q' :: 'u' :: 'i' :: 's' :: 'i' :: 't' :: 'i' ::
          'o' :: 'n' :: '\n' ::
        (r.acquisition.data ++ '\n' :: '\n' :: '#' :: '#' :: ' ' :: 'D' :: 'e' :: 'b' :: 't' ::
          '\n' ::
        (r.debt.data ++ '\n' :: '\n' :: '#' :: '#' :: ' ' :: 'N' :: 'e' :: 'x' :: 't' :: ' ' ::
          'A' :: 'c' :: 't' :: 'i' :: 'o' :: 'n' :: '\n' ::
        (r.nextAction.data ++ ['\n'])))))) :=
    (renderContent_data (toSaveData r)).trans rfl
  show parseLog f (renderContent (toSaveData r)) = _
  unfold parseLog matchCapture
  rw [hdata]
  rw [scan_date_field hd, scan_topic_field hdq ht, scan_duration_field hdq htq hdu]
  simp only [Option.map_some', Option.getD_some, string_mk_data, parseIntJS_natDigits]

/-- Two valid records identical except for the acquisition section. -/
def recA : SessionRecord := ⟨"2024-01-02", "Graphs", 25, "BFS", "", "practice"⟩

/-- Like `recA` but with a different acquisition section. -/
def recB : SessionRecord := ⟨"2024-01-02", "Graphs", 25, "DFS", "", "practice"⟩

/-- Fidelity check: a topic containing U+2028 LINE SEPARATOR is not
clean, the regex capture fails across it, and the extraction falls back
to the `'Unknown'` default — the round-trip hypotheses exclude it. -/
theorem lineSep_topic_defaults :
    ¬ CleanF ['a', ' ', 'b'] ∧
    (parseLog "a.md" (renderContent
      ⟨"2026-02-03", String.mk ['a', ' ', 'b'], "25", "", "", ""⟩)).topic =
      "Unknown" :=
  ⟨by decide, by decide⟩

theorem c1_sections_not_roundtripped :
    parseLog "a.md" (renderRecord recA) = parseLog "a.md" (renderRecord recB) ∧
    recA.acquisition ≠ recB.acquisition ∧
    recA.topic ≠ "" ∧ 0 < recA.durationMinutes ∧
    recB.topic ≠ "" ∧ 0 < recB.durationMinutes := by
  refine ⟨by decide, by decide, by decide, by decide, by decide, by decide⟩

/-- Concrete valid record for witness statements. -/
def recW : SessionRecord := ⟨"2026-02-03T04:05:06.000Z", "Lean meta", 40, "wf", "eqn", "more"⟩

theorem c1_witness :
    CleanF recW.date.data ∧ CleanF recW.topic.data ∧
    parseLog "w.md" (renderRecord recW) =
      { id := "w.md", date := recW.date, topic := recW.topic,
        duration := some (recW.durationMinutes : Int) } :=
  ⟨by decide, by decide, parse_render_header "w.md" recW (by decide) (by decide)⟩


/-! ## The persisted configuration (config.json) -/

/-- The persisted `{savePath, gitRepoUrl}`; empty string is the unset default. -/
structure Config where
  savePath : String
  gitRepoUrl : String
deriving DecidableEq, Repr

/-! ## save-log handler (lines 197-279)

Every awaited effect of the handler body is modelled by one field of
`SaveWorld`: an `Except JsErr Unit` is the outcome of that call
(`Except.error e` models the call throwing `e`).  The handler is a pure
function of the request data, the loaded config and this world; its
observable writes (the record file and the local commit) are collected
in a `FsLog`. -/

structure SaveWorld where
  /-- Outcome of `fs.existsSync(dirPath)` (line 210). -/
  dirExists : Bool
  /-- Outcome of `fs.mkdirSync(dirPath, {recursive: true})` (line 212). -/
  mkdir : Except JsErr Unit
  /-- Outcome of `fs.existsSync(path.join(dirPath, '.git'))` (line 217). -/
  gitDirExists : Bool
  /-- Outcome of `git.init()` (line 218). -/
  gitInit : Except JsErr Unit
  /-- Outcome of `git.addConfig('user.name', ...)` (line 222); not guarded by any
  inner try/catch in this handler. -/
  setName : Except JsErr Unit
  /-- Outcome of `git.addConfig('user.email', ...)` (line 223); likewise unguarded. -/
  setEmail : Except JsErr Unit
  /-- Value of `new Date().toISOString()` (line 227). -/
  isoDate : String
  /-- Value of `new Date().toTimeString()` (line 228). -/
  timeString : String
  /-- Outcome of `fs.writeFileSync(filePath, content, 'utf-8')` (line 247). -/
  writeFile : Except JsErr Unit
  /-- Outcome of `git.add('.')` (line 250). -/
  gitAdd : Except JsErr Unit
  /-- Outcome of `git.commit(...)` (line 251). -/
  gitCommit : Except JsErr Unit
  /-- Outcome of `git.raw(['branch','-M','main'])` (line 256): wrapped in its own
  try/catch (lines 255-259), so its outcome never reaches the result. -/
  branchMove : Except JsErr Unit
  /-- Outcome of `git.push(['-u','origin','main'])` (line 266). -/
  gitPush : Except JsErr Unit

/-- The handler's IPC reply `{success, path?, error?}`. -/
structure SaveResult where
  success : Bool
  path : Option String
  error : Option String
deriving DecidableEq, Repr

/-- Observable local writes of a save: record files written (path and
content) and commit messages recorded, in order. -/
structure FsLog where
  files : List (String × String)
  commits : List String
deriving DecidableEq, Repr

/-- JS `data.topic.replace(/[^a-zA-Z0-9]/g, '_')` (line 225). -/
def sanitizeTopic (t : String) : String :=
  String.mk (t.data.map (fun c => if c.isAlphanum then c else '_'))

/-- JS `s.split(stop)[0]`: the prefix before the first `stop` char. -/
def takeBefore (stop : Char) (s : String) : String :=
  String.mk (s.data.takeWhile (fun c => c ≠ stop))

/-- JS `s.replace(/:/g, '-')` (line 228). -/
def dashColons (s : String) : String :=
  String.mk (s.data.map (fun c => if c = ':' then '-' else c))

/-- Node `path.join` for one separator (POSIX form). -/
def pathJoin (a b : String) : String := a ++ "/" ++ b

/-- The file name `` `${datePart}_${timePart}_${safeTopic}.md` `` (lines 227-229). -/
def logFileName (iso timeString topic : String) : String :=
  takeBefore 'T' iso ++ "_" ++ dashColons (takeBefore ' ' timeString) ++ "_" ++
    sanitizeTopic topic ++ ".md"

/-- The commit message `` `[Study] ${data.topic} (${data.duration}min)` ``
(line 251). -/
def commitMsg (d : SaveData) : String :=
  "[Study] " ++ d.topic ++ " (" ++ d.duration ++ "min)"

/-- The catch-all reply `{success:false, error:String(error)}`
(lines 275-278). -/
def failReply (e : JsErr) : SaveResult :=
  { success := false, path := none, error := some (jsErrToString e) }

/-- The save-log handler body (lines 197-279), step by step.  A
`.error` outcome at an unguarded await propagates to the outer catch,
which replies `{success:false, error:String(error)}`; the file and
commit logs keep whatever had already happened (nothing is rolled
back). -/
def saveLog (config : Config) (data : SaveData) (w : SaveWorld) :
    SaveResult × FsLog :=
  if config.savePath = "" then
    -- `throw new Error('Save path is not configured.')` (line 205)
    (failReply ⟨true, "Error", "Save path is not configured."⟩, ⟨[], []⟩)
  else
    match (if w.dirExists then Except.ok () else w.mkdir) with
    | .error e => (failReply e, ⟨[], []⟩)
    | .ok _ =>
    match (if w.gitDirExists then Except.ok () else w.gitInit) with
    | .error e => (failReply e, ⟨[], []⟩)
    | .ok _ =>
    match w.setName with
    | .error e => (failReply e, ⟨[], []⟩)
    | .ok _ =>
    match w.setEmail with
    | .error e => (failReply e, ⟨[], []⟩)
    | .ok _ =>
    let filePath := pathJoin config.savePath (logFileName w.isoDate w.timeString data.topic)
    match w.writeFile with
    | .error e => (failReply e, ⟨[], []⟩)
    | .ok _ =>
    match w.gitAdd with
    | .error e => (failReply e, ⟨[(filePath, renderContent data)], []⟩)
    | .ok _ =>
    match w.gitCommit with
    | .error e => (failReply e, ⟨[(filePath, renderContent data)], []⟩)
    | .ok _ =>
    -- branch -M main: failure swallowed by lines 255-259, so
    -- `w.branchMove` cannot influence the reply.
    if config.gitRepoUrl = "" then
      ({ success := true, path := some filePath, error := none },
       ⟨[(filePath, renderContent data)], [commitMsg data]⟩)
    else
      match w.gitPush with
      | .error e =>
        ({ success := true, path := some filePath,
           error := some ("Saved locally, but Git Push failed: " ++ e.message) },
         ⟨[(filePath, renderContent data)], [commitMsg data]⟩)
      | .ok _ =>
        ({ success := true, path := some filePath, error := none },
         ⟨[(filePath, renderContent data)], [commitMsg data]⟩)

/-! ## save-config handler (lines 127-195) -/

structure CfgWorld where
  /-- Outcome of `saveConfigToFile(config)` (line 128), a boolean. -/
  writeCfg : Bool
  /-- Outcome of `fs.existsSync(config.savePath)` (line 136). -/
  dirExists : Bool
  /-- Outcome of `fs.mkdirSync(config.savePath, {recursive: true})` (line 137). -/
  mkdir : Except JsErr Unit
  /-- Outcome of `git.checkIsRepo()` (line 143). -/
  isRepo : Bool
  /-- Outcome of `git.init()` (line 145). -/
  gitInit : Except JsErr Unit
  /-- Outcome of `git.raw(['branch','-M','main'])` (line 149); not guarded by an
  inner try/catch in this handler. -/
  branchMove : Except JsErr Unit
  /-- Outcome of `git.addConfig('user.name', ...)` (line 153): inside the inner
  try/catch of lines 152-157, so a failure is logged and swallowed and
  can never reach the reply. -/
  setName : Except JsErr Unit
  /-- Outcome of `git.addConfig('user.email', ...)` (line 154): likewise swallowed. -/
  setEmail : Except JsErr Unit
  /-- The push URL of the `origin` remote found by `git.getRemotes(true)`
  (lines 162-163), if that remote exists. -/
  originUrl : Option String
  /-- Outcome of `git.remote(['set-url', 'origin', ...])` (line 167). -/
  setRemoteUrl : Except JsErr Unit
  /-- Outcome of `git.addRemote('origin', ...)` (line 170). -/
  addRemote : Except JsErr Unit
  /-- Outcome of `git.fetch('origin', 'main', {'--depth': '1'})` (line 176). -/
  fetchMain : Except JsErr Unit

/-- Whether `needle` occurs at the head of `hay`. -/
def headMatch : List Char → List Char → Bool
  | [], _ => true
  | _ :: _, [] => false
  | n :: ns, c :: cs => n = c && headMatch ns cs

/-- Substring test `containsSub needle hay`: `needle` occurs somewhere in `hay`. -/
def containsSub (needle : List Char) : List Char → Bool
  | [] => headMatch needle []
  | c :: cs => headMatch needle (c :: cs) || containsSub needle cs

/-- JS `hay.includes(needle)` (line 181). -/
def includesJS (needle hay : String) : Bool := containsSub needle.data hay.data

/-- The reply `{success:false, error:"Git setup failed: ..."}` (line 191); the
interpolation is `e instanceof Error ? e.message : String(e)`, which is
the `message` field in our model either way. -/
def gitSetupFail (e : JsErr) : SaveResult :=
  { success := false, path := none,
    error := some ("Git setup failed: " ++ e.message) }

/-- The fetch-probe warning text of line 185 (again around `errorMsg`,
which is the thrown value's `message`). -/
def fetchWarnMsg (e : JsErr) : String :=
  "Config saved, but connection check failed (Repo might be empty or Auth failed): "
    ++ e.message

/-- The save-config handler body (lines 127-195).  The source returns
the failure reply when `!saveResult`; the model tests the positive
condition first, with the same two outcomes.  The `addConfig` outcomes
(`setName`, `setEmail`) are deliberately never consulted: their
failures are swallowed by the inner try/catch of lines 152-157. -/
def saveConfig (config : Config) (w : CfgWorld) : SaveResult :=
  if w.writeCfg then
    if config.savePath = "" then { success := true, path := none, error := none }
    else
      match (if w.dirExists then Except.ok () else w.mkdir) with
      | .error e => gitSetupFail e
      | .ok _ =>
      match (if w.isRepo then Except.ok () else w.gitInit) with
      | .error e => gitSetupFail e
      | .ok _ =>
      match w.branchMove with
      | .error e => gitSetupFail e
      | .ok _ =>
      if config.gitRepoUrl = "" then { success := true, path := none, error := none }
      else
        match (match w.originUrl with
               | some u => if u ≠ config.gitRepoUrl then w.setRemoteUrl else Except.ok ()
               | none => w.addRemote) with
        | .error e => gitSetupFail e
        | .ok _ =>
        match w.fetchMain with
        | .ok _ => { success := true, path := none, error := none }
        | .error e =>
          if includesJS "couldn't find remote ref" e.message ||
             includesJS "fatal: couldn't find remote ref" e.message then
            { success := true, path := none, error := none }
          else
            { success := true, path := none, error := some (fetchWarnMsg e) }
  else { success := false, path := none, error := some "Failed to write config file" }

/-! ## C2: a push failure degrades to a warning on a successful save -/

/-- The save's required local steps (directory, repository init, the two
unguarded identity calls, the write, stage and commit) all succeed. -/
def localStepsOk (w : SaveWorld) : Prop :=
  (if w.dirExists then Except.ok () else w.mkdir) = Except.ok () ∧
  (if w.gitDirExists then Except.ok () else w.gitInit) = Except.ok () ∧
  w.setName = Except.ok () ∧ w.setEmail = Except.ok () ∧
  w.writeFile = Except.ok () ∧ w.gitAdd = Except.ok () ∧
  w.gitCommit = Except.ok ()

/-- C2: when a remote URL is configured and every local step succeeds
but the push throws, save-log still replies `success: true` with the
written path, a non-empty warning string, the record file on disk, and
the local commit kept. -/
theorem c2_push_failure_nonfatal (config : Config) (data : SaveData)
    (w : SaveWorld) (e : JsErr)
    (hs : config.savePath ≠ "") (hr : config.gitRepoUrl ≠ "")
    (hok : localStepsOk w) (hpu : w.gitPush = Except.error e) :
    saveLog config data w =
      ({ success := true,
         path := some (pathJoin config.savePath
           (logFileName w.isoDate w.timeString data.topic)),
         error := some ("Saved locally, but Git Push failed: " ++ e.message) },
       ⟨[(pathJoin config.savePath (logFileName w.isoDate w.timeString data.topic),
          renderContent data)], [commitMsg data]⟩) ∧
    ("Saved locally, but Git Push failed: " ++ e.message) ≠ "" := by
  obtain ⟨hmk, hin, hnm, hem, hwr, had, hcm⟩ := hok
  constructor
  · simp only [saveLog, hs, hr, hmk, hin, hnm, hem, hwr, had, hcm, hpu,
      if_neg, ite_false, ite_true]
  · intro hmt
    have h2 := congrArg String.length hmt
    rw [String.length_append] at h2
    have h3 : ("Saved locally, but Git Push failed: " : String).length = 36 := rfl
    have h4 : ("" : String).length = 0 := rfl
    omega

/-! ## C3: unset savePath -/

/-- C3 (amended): with `savePath` unset the handler throws
`new Error('Save path is not configured.')`, the catch stringifies it
(`String(error)` keeps the `Error: ` name prefix) and nothing is
written. -/
theorem c3_unconfigured_save (config : Config) (data : SaveData) (w : SaveWorld)
    (hs : config.savePath = "") :
    saveLog config data w =
      ({ success := false, path := none,
         error := some "Error: Save path is not configured." }, ⟨[], []⟩) := by
  unfold saveLog
  rw [if_pos hs]
  rfl

@[simp] theorem data_mk (l : List Char) : (String.mk l).data = l := rfl

theorem sanitizeTopic_chars (t : String) :
    ∀ c ∈ (sanitizeTopic t).data, c.isAlphanum ∨ c = '_' := by
  intro c hc
  simp only [sanitizeTopic, data_mk, List.mem_map] at hc
  obtain ⟨x, _, hx⟩ := hc
  by_cases ha : x.isAlphanum
  · left
    rw [← hx]
    simp [ha]
  · right
    rw [← hx]
    simp [ha]

theorem dashColons_no_colon (s : String) :
    ∀ c ∈ (dashColons s).data, c ≠ ':' := by
  intro c hc
  simp only [dashColons, data_mk, List.mem_map] at hc
  obtain ⟨x, _, hx⟩ := hc
  by_cases hx' : x = ':'
  · rw [← hx]
    simp [hx']
  · rw [← hx]
    simp [hx']

/-- C5 (amended): a successful save writes the record flat in
`savePath`, as `<YYYY-MM-DD>_<HH-MM-SS>_<sanitized topic>.md` — the
date joined to the time part by an underscore, no per-day subdirectory;
colons of the time become dashes and non-alphanumeric topic chars
become underscores. -/
theorem c5_flat_file_layout (config : Config) (data : SaveData) (w : SaveWorld)
    (hs : config.savePath ≠ "") (hok : localStepsOk w) :
    (saveLog config data w).1.path = some (config.savePath ++ "/" ++
      (takeBefore 'T' w.isoDate ++ "_" ++ dashColons (takeBefore ' ' w.timeString)
        ++ "_" ++ sanitizeTopic data.topic ++ ".md")) ∧
    (config.savePath ++ "/" ++
      (takeBefore 'T' w.isoDate ++ "_" ++ dashColons (takeBefore ' ' w.timeString)
        ++ "_" ++ sanitizeTopic data.topic ++ ".md"), renderContent data) ∈
      (saveLog config data w).2.files ∧
    (∀ c ∈ (sanitizeTopic data.topic).data, c.isAlphanum ∨ c = '_') ∧
    (∀ c ∈ (dashColons (takeBefore ' ' w.timeString)).data, c ≠ ':') := by
  obtain ⟨hmk, hin, hnm, hem, hwr, had, hcm⟩ := hok
  refine ⟨?_, ?_, sanitizeTopic_chars data.topic, dashColons_no_colon _⟩ <;>
  · simp only [saveLog, hs, hmk, hin, hnm, hem, hwr, had, hcm,
      if_neg, ite_false, ite_true]
    by_cases hr : config.gitRepoUrl = ""
    · simp [hr, pathJoin, logFileName]
    · simp only [hr, ite_false, ite_true, if_neg]
      cases hpu : w.gitPush with
      | error e => simp [pathJoin, logFileName]
      | ok u => simp [pathJoin, logFileName]

/-- C6 (amended): in the save-log handler the `addConfig` identity
calls are not guarded, so an identity failure aborts the save with
`success:false` and `String(e)`, before anything is written. -/
theorem c6_identity_failure_fatal (config : Config) (data : SaveData)
    (w : SaveWorld) (e : JsErr) (hs : config.savePath ≠ "")
    (hmk : (if w.dirExists then Except.ok () else w.mkdir) = Except.ok ())
    (hin : (if w.gitDirExists then Except.ok () else w.gitInit) = Except.ok ())
    (hnm : w.setName = Except.error e) :
    saveLog config data w = (failReply e, ⟨[], []⟩) := by
  simp only [saveLog, hs, hmk, hin, hnm, if_neg, ite_false, ite_true]

/-- In the save-config handler, by contrast, the identity outcomes are
swallowed: the reply is `success:true` no matter what `setName` and
`setEmail` returned, because the inner try/catch of lines 152-157
drops their failures.  `cfgStepsOk` constrains every other git step;
the identity fields stay arbitrary. -/
def cfgStepsOk (config : Config) (w : CfgWorld) : Prop :=
  w.writeCfg = true ∧
  (if w.dirExists then Except.ok () else w.mkdir) = Except.ok () ∧
  (if w.isRepo then Except.ok () else w.gitInit) = Except.ok () ∧
  w.branchMove = Except.ok () ∧
  (match w.originUrl with
   | some u => if u ≠ config.gitRepoUrl then w.setRemoteUrl else Except.ok ()
   | none => w.addRemote) = Except.ok ()

theorem saveConfig_identity_swallowed (config : Config) (w : CfgWorld)
    (hok : cfgStepsOk config w) (hf : w.fetchMain = Except.ok ()) :
    (saveConfig config w).success = true := by
  obtain ⟨hw, hmk, hin, hbr, hrem⟩ := hok
  simp only [saveConfig, hw, hmk, hin, hbr, hrem, hf, ite_false, ite_true]
  by_cases hp : config.savePath = ""
  · simp [hp]
  · simp only [hp, ite_false, if_neg]
    by_cases hr : config.gitRepoUrl = ""
    · simp [hr]
    · simp [hr, hrem, hf]

theorem headMatch_iff (n : List Char) : ∀ h : List Char,
    headMatch n h = true ↔ n <+: h := by
  induction n with
  | nil =>
    intro h
    simp [headMatch, List.nil_prefix]
  | cons a ns ih =>
    intro h
    cases h with
    | nil =>
      simp [headMatch, List.prefix_nil]
    | cons c cs =>
      simp only [headMatch, Bool.and_eq_true, decide_eq_true_eq,
        List.cons_prefix_cons, ih cs]

theorem containsSub_iff (n : List Char) : ∀ h : List Char,
    containsSub n h = true ↔ n <:+: h := by
  intro h
  induction h with
  | nil =>
    cases n with
    | nil => simp [containsSub, headMatch]
    | cons a ns => simp [containsSub, headMatch, List.infix_nil]
  | cons c cs ih =>
    simp only [containsSub, Bool.or_eq_true, headMatch_iff, ih,
      List.infix_cons_iff]

theorem includes_fatal_false {m : String}
    (h : includesJS "couldn't find remote ref" m = false) :
    includesJS "fatal: couldn't find remote ref" m = false := by
  cases hb : includesJS "fatal: couldn't find remote ref" m with
  | false => rfl
  | true =>
    exfalso
    have h1 : containsSub ("couldn't find remote ref".data)
        ("fatal: couldn't find remote ref".data) = true := by decide
    have h2 := (containsSub_iff _ _).mp h1
    have h3 := (containsSub_iff _ _).mp hb
    have h5 := (containsSub_iff ("couldn't find remote ref".data) m.data).mpr
      (h2.trans h3)
    rw [includesJS, h5] at h
    exact absurd h (by decide)

/-- C7: during the save-config connectivity probe, a fetch error whose
message marks a missing remote ref yields a bare `success:true`; any
other fetch error yields `success:true` with a non-empty non-fatal
warning. -/
theorem c7_fetch_probe (config : Config) (w : CfgWorld) (e : JsErr)
    (hs : config.savePath ≠ "") (hr : config.gitRepoUrl ≠ "")
    (hok : cfgStepsOk config w) (hf : w.fetchMain = Except.error e) :
    (includesJS "couldn't find remote ref" e.message = true →
       saveConfig config w = { success := true, path := none, error := none }) ∧
    (includesJS "couldn't find remote ref" e.message = false →
       saveConfig config w =
         { success := true, path := none, error := some (fetchWarnMsg e) } ∧
       fetchWarnMsg e ≠ "") := by
  obtain ⟨hw, hmk, hin, hbr, hrem⟩ := hok
  constructor
  · intro hinc
    simp only [saveConfig, hw, hs, hr, hmk, hin, hbr, hrem, hf, hinc,
      ite_false, ite_true, Bool.true_or, if_neg]
  · intro hninc
    have hnf := includes_fatal_false hninc
    constructor
    · simp only [saveConfig, hw, hs, hr, hmk, hin, hbr, hrem, hf, hninc, hnf,
        ite_false, ite_true, Bool.false_or, if_neg]
      rfl
    · intro hmt
      have h2 := congrArg String.length hmt
      rw [fetchWarnMsg, String.length_append] at h2
      have h3 : ("Config saved, but connection check failed (Repo might be empty or Auth failed): " : String).length = 80 := rfl
      have h4 : ("" : String).length = 0 := rfl
      omega

/-! ## Concrete runs -/

/-- Demo configuration with a remote. -/
def cfgDemo : Config := ⟨"/logs", "git@example.com:me/logs.git"⟩

/-- Demo configuration without a remote. -/
def cfgLocal : Config := ⟨"/logs", ""⟩

/-- Demo configuration with nothing set. -/
def cfgUnset : Config := ⟨"", ""⟩

/-- Demo request data. -/
def dataDemo : SaveData :=
  ⟨"2026-02-03T04:05:06.000Z", "Graphs", "25", "BFS", "", "practice"⟩

/-- Demo request whose topic has non-alphanumeric chars. -/
def dataTopicPunct : SaveData :=
  ⟨"2026-02-03T04:05:06.000Z", "Graph Theory!", "25", "BFS", "", "practice"⟩

/-- A save world where every effect succeeds. -/
def saveWorldOk : SaveWorld :=
  ⟨true, Except.ok (), true, Except.ok (), Except.ok (), Except.ok (),
   "2026-02-03T04:05:06.000Z", "04:05:06 GMT+0000 (UTC)",
   Except.ok (), Except.ok (), Except.ok (), Except.ok (), Except.ok ()⟩

def pushErrDemo : JsErr := ⟨true, "GitError", "unable to access remote repository"⟩

def saveWorldPushFail : SaveWorld := { saveWorldOk with gitPush := Except.error pushErrDemo }

def identErrDemo : JsErr := ⟨true, "Error", "could not lock config file .git/config"⟩

def saveWorldIdentFail : SaveWorld := { saveWorldOk with setName := Except.error identErrDemo }

theorem c2_witness :
    cfgDemo.savePath ≠ "" ∧ cfgDemo.gitRepoUrl ≠ "" ∧
    localStepsOk saveWorldPushFail ∧
    saveWorldPushFail.gitPush = Except.error pushErrDemo ∧
    (saveLog cfgDemo dataDemo saveWorldPushFail =
      ({ success := true,
         path := some (pathJoin cfgDemo.savePath
           (logFileName saveWorldPushFail.isoDate saveWorldPushFail.timeString
             dataDemo.topic)),
         error := some ("Saved locally, but Git Push failed: " ++ pushErrDemo.message) },
       ⟨[(pathJoin cfgDemo.savePath
           (logFileName saveWorldPushFail.isoDate saveWorldPushFail.timeString
             dataDemo.topic), renderContent dataDemo)], [commitMsg dataDemo]⟩) ∧
     ("Saved locally, but Git Push failed: " ++ pushErrDemo.message) ≠ "") :=
  ⟨by decide, by decide, ⟨rfl, rfl, rfl, rfl, rfl, rfl, rfl⟩, rfl,
   c2_push_failure_nonfatal cfgDemo dataDemo saveWorldPushFail pushErrDemo
     (by decide) (by decide) ⟨rfl, rfl, rfl, rfl, rfl, rfl, rfl⟩ rfl⟩

theorem c3_error_prefix_cx :
    (saveLog cfgUnset dataDemo saveWorldOk).1.error =
      some "Error: Save path is not configured." ∧
    some "Error: Save path is not configured." ≠
      (some "Save path is not configured." : Option String) ∧
    (saveLog cfgUnset dataDemo saveWorldOk).2.files = [] :=
  ⟨rfl, by decide, rfl⟩

theorem c3_witness :
    cfgUnset.savePath = "" ∧
    saveLog cfgUnset dataDemo saveWorldOk =
      ({ success := false, path := none,
         error := some "Error: Save path is not configured." }, ⟨[], []⟩) :=
  ⟨rfl, c3_unconfigured_save cfgUnset dataDemo saveWorldOk rfl⟩

theorem c5_no_per_day_subdirectory_cx :
    (saveLog cfgLocal dataTopicPunct saveWorldOk).1.path =
      some "/logs/2026-02-03_04-05-06_Graph_Theory_.md" ∧
    ("/logs/2026-02-03_04-05-06_Graph_Theory_.md" : String) ≠
      "/logs/2026-02-03/04-05-06_Graph_Theory_.md" :=
  ⟨by decide, by decide⟩

theorem c5_witness :
    cfgLocal.savePath ≠ "" ∧ localStepsOk saveWorldOk ∧
    ((saveLog cfgLocal dataTopicPunct saveWorldOk).1.path =
      some (cfgLocal.savePath ++ "/" ++
        (takeBefore 'T' saveWorldOk.isoDate ++ "_" ++
         dashColons (takeBefore ' ' saveWorldOk.timeString) ++ "_" ++
         sanitizeTopic dataTopicPunct.topic ++ ".md")) ∧
     (cfgLocal.savePath ++ "/" ++
        (takeBefore 'T' saveWorldOk.isoDate ++ "_" ++
         dashColons (takeBefore ' ' saveWorldOk.timeString) ++ "_" ++
         sanitizeTopic dataTopicPunct.topic ++ ".md"), renderContent dataTopicPunct) ∈
       (saveLog cfgLocal dataTopicPunct saveWorldOk).2.files ∧
     (∀ c ∈ (sanitizeTopic dataTopicPunct.topic).data, c.isAlphanum ∨ c = '_') ∧
     (∀ c ∈ (dashColons (takeBefore ' ' saveWorldOk.timeString)).data, c ≠ ':')) :=
  ⟨by decide, ⟨rfl, rfl, rfl, rfl, rfl, rfl, rfl⟩,
   c5_flat_file_layout cfgLocal dataTopicPunct saveWorldOk (by decide)
     ⟨rfl, rfl, rfl, rfl, rfl, rfl, rfl⟩⟩

theorem c6_identity_fatal_cx :
    (saveLog cfgDemo dataDemo saveWorldIdentFail).1.success = false ∧
    (saveLog cfgDemo dataDemo saveWorldIdentFail).1.error =
      some "Error: could not lock config file .git/config" ∧
    (saveLog cfgDemo dataDemo saveWorldIdentFail).2.files = [] :=
  ⟨rfl, rfl, rfl⟩

theorem c6_witness :
    cfgDemo.savePath ≠ "" ∧
    (if saveWorldIdentFail.dirExists then Except.ok () else saveWorldIdentFail.mkdir)
      = Except.ok () ∧
    (if saveWorldIdentFail.gitDirExists then Except.ok () else saveWorldIdentFail.gitInit)
      = Except.ok () ∧
    saveWorldIdentFail.setName = Except.error identErrDemo ∧
    saveLog cfgDemo dataDemo saveWorldIdentFail = (failReply identErrDemo, ⟨[], []⟩) :=
  ⟨by decide, rfl, rfl, rfl,
   c6_identity_failure_fatal cfgDemo dataDemo saveWorldIdentFail identErrDemo
     (by decide) rfl rfl rfl⟩

/-- A config world where every effect succeeds and `origin` already
points at the configured URL. -/
def cfgWorldOk : CfgWorld :=
  ⟨true, true, Except.ok (), true, Except.ok (), Except.ok (), Except.ok (),
   Except.ok (), some "git@example.com:me/logs.git", Except.ok (), Except.ok (),
   Except.ok ()⟩

def fetchErrEmptyRepo : JsErr :=
  ⟨true, "GitError", "fatal: couldn't find remote ref main"⟩

def fetchErrAuth : JsErr :=
  ⟨true, "GitError", "Authentication failed for remote"⟩

def cfgWorldFetchEmpty : CfgWorld := { cfgWorldOk with fetchMain := Except.error fetchErrEmptyRepo }

def cfgWorldFetchAuth : CfgWorld := { cfgWorldOk with fetchMain := Except.error fetchErrAuth }

theorem c7_witness :
    (cfgDemo.savePath ≠ "" ∧ cfgDemo.gitRepoUrl ≠ "" ∧
     cfgStepsOk cfgDemo cfgWorldFetchEmpty ∧
     cfgWorldFetchEmpty.fetchMain = Except.error fetchErrEmptyRepo ∧
     includesJS "couldn't find remote ref" fetchErrEmptyRepo.message = true ∧
     saveConfig cfgDemo cfgWorldFetchEmpty =
       { success := true, path := none, error := none }) ∧
    (cfgStepsOk cfgDemo cfgWorldFetchAuth ∧
     cfgWorldFetchAuth.fetchMain = Except.error fetchErrAuth ∧
     includesJS "couldn't find remote ref" fetchErrAuth.message = false ∧
     saveConfig cfgDemo cfgWorldFetchAuth =
       { success := true, path := none, error := some (fetchWarnMsg fetchErrAuth) } ∧
     fetchWarnMsg fetchErrAuth ≠ "") :=
  ⟨⟨by decide, by decide, ⟨rfl, rfl, rfl, rfl, rfl⟩, rfl, by decide,
    (c7_fetch_probe cfgDemo cfgWorldFetchEmpty fetchErrEmptyRepo (by decide) (by decide)
      ⟨rfl, rfl, rfl, rfl, rfl⟩ rfl).1 (by decide)⟩,
   ⟨⟨rfl, rfl, rfl, rfl, rfl⟩, rfl, by decide,
    ((c7_fetch_probe cfgDemo cfgWorldFetchAuth fetchErrAuth (by decide) (by decide)
      ⟨rfl, rfl, rfl, rfl, rfl⟩ rfl).2 (by decide)).1,
    ((c7_fetch_probe cfgDemo cfgWorldFetchAuth fetchErrAuth (by decide) (by decide)
      ⟨rfl, rfl, rfl, rfl, rfl⟩ rfl).2 (by decide)).2⟩⟩


/-! ## get-logs handler over a directory listing (lines 281-313) -/

/-- A directory tree: what the filesystem under `savePath` holds. -/
inductive FsTree where
  | file (content : String) : FsTree
  | dir (entries : List (String × FsTree)) : FsTree

/-- JS `file.endsWith('.md')` (line 291): the name's last three chars
are `.md`. -/
def endsWithMd (n : String) : Bool := headMatch ['d', 'm', '.'] n.data.reverse

/-- Model of `fs.readFileSync(path.join(dirPath, n))`: a file yields its
content; a missing name or a directory throws (`none`). -/
def readEntry (es : List (String × FsTree)) (n : String) : Option String :=
  match es.find? (fun p => p.1 == n) with
  | some (_, FsTree.file c) => some c
  | _ => none

/-- Read each name in order; `none` as soon as any read throws. -/
def readEach (es : List (String × FsTree)) :
    List String → Option (List (String × String))
  | [] => some []
  | n :: rest =>
    match readEntry es n with
    | some c => (readEach es rest).map (fun l => (n, c) :: l)
    | none => none

/-- The order induced by the line 307 comparator
`(a, b) => new Date(b.date).getTime() - new Date(a.date).getTime()`:
`a` may precede `b` when `b`'s date value is at most `a`'s.  The JS
`Date` parser is environment state, abstracted as the valuation `dv`
(`none` models `NaN`; the `getD 0` default only makes this one total
relation usable by the demo engine — the theorems about the program
rely on it solely where every date parses, see `SortsByDate`). -/
def entryGe (dv : String → Option Int) (a b : LogEntry) : Prop :=
  (dv b.date).getD 0 ≤ (dv a.date).getD 0

instance (dv : String → Option Int) : DecidableRel (entryGe dv) := fun a b => by
  unfold entryGe
  infer_instance

instance (dv : String → Option Int) : IsTotal LogEntry (entryGe dv) :=
  ⟨fun a b => le_total ((dv b.date).getD 0) ((dv a.date).getD 0)⟩

instance (dv : String → Option Int) : IsTrans LogEntry (entryGe dv) :=
  ⟨fun _ _ _ h1 h2 => le_trans h2 h1⟩

/-- The get-logs handler body: `[]` when unconfigured (line 284), when
the directory does not exist (line 288, `root = none`) or when any read
throws (caught at line 309); otherwise the top-level names ending in
`.md` (line 291, `fs.readdirSync(dirPath).filter(...)` — not
recursive) are read, parsed, and handed to `Array.prototype.sort` with
the line 307 comparator.  The engine's sort is environment behavior —
when some date parses to `NaN` the comparator is inconsistent and
ECMA-262 leaves the order implementation-defined — so it enters the
model as the parameter `sorter`, constrained in the theorems only by
what the language spec guarantees (`SortsByDate`). -/
def getLogs (sorter : List LogEntry → List LogEntry) (savePath : String)
    (root : Option (List (String × FsTree))) : List LogEntry :=
  if savePath = "" then []
  else
    match root with
    | none => []
    | some es =>
      match readEach es ((es.map Prod.fst).filter (fun n => endsWithMd n)) with
      | none => []
      | some pairs => sorter (pairs.map (fun p => parseLog p.1 p.2))

/-- What ECMA-262 guarantees of `Array.prototype.sort` under the line
307 comparator: the result is always some permutation of the input,
and when the comparator is consistent on that input — every entry's
date parses, so no comparison returns `NaN` — the result is ordered by
it.  Nothing is guaranteed about the order otherwise. -/
def SortsByDate (dv : String → Option Int)
    (sorter : List LogEntry → List LogEntry) : Prop :=
  (∀ l, (sorter l).Perm l) ∧
  (∀ l, (∀ e ∈ l, (dv e.date).isSome) → (sorter l).Sorted (entryGe dv))

/-- One compliant engine: insertion sort by the comparator. -/
theorem insertionSort_sortsByDate (dv : String → Option Int) :
    SortsByDate dv (List.insertionSort (entryGe dv)) :=
  ⟨fun l => List.perm_insertionSort (entryGe dv) l,
   fun l _ => List.sorted_insertionSort (entryGe dv) l⟩

/-- Modelled from the spec: §4.3 `listAllRecords(base)` "recursively
walks `base`, skipping the version-control metadata directory,
returning every file matching the record extension" — given here only
to state what the code's non-recursive listing misses. -/
def specListAllRecords : List (String × FsTree) → List String
  | [] => []
  | (n, FsTree.file _) :: rest =>
    (if endsWithMd n then [n] else []) ++ specListAllRecords rest
  | (n, FsTree.dir es) :: rest =>
    (if n = ".git" then []
     else (specListAllRecords es).map (fun p => n ++ "/" ++ p)) ++
      specListAllRecords rest

theorem readEach_names (es : List (String × FsTree)) : ∀ {names pairs},
    readEach es names = some pairs → pairs.map Prod.fst = names := by
  intro names
  induction names with
  | nil =>
    intro pairs h
    simp only [readEach, Option.some_inj] at h
    rw [← h]
    rfl
  | cons n rest ih =>
    intro pairs h
    unfold readEach at h
    cases hre : readEntry es n with
    | none =>
      rw [hre] at h
      exact absurd h (by simp)
    | some c =>
      rw [hre] at h
      cases hr2 : readEach es rest with
      | none =>
        rw [hr2] at h
        exact absurd h (by simp)
      | some l =>
        rw [hr2] at h
        simp only [Option.map_some', Option.some_inj] at h
        rw [← h]
        simp only [List.map_cons]
        rw [ih hr2]

/-- Descending date order between two entries, on the parsed values. -/
def dateDesc (dv : String → Option Int) (a b : LogEntry) : Prop :=
  ∀ x y : Int, dv a.date = some x → dv b.date = some y → y ≤ x

/-- C8 (amended): when configured and the directory is readable,
get-logs returns exactly the parsed top-level `.md` records — entries
`{id, date, topic, duration}`; no acquisition text is extracted — and,
for any sort engine within the ECMA-262 guarantees, whenever every
record date parses the list is sorted by date descending. -/
theorem c8_entries_and_sort (dv : String → Option Int)
    (sorter : List LogEntry → List LogEntry) (savePath : String)
    (es : List (String × FsTree)) (pairs : List (String × String))
    (hs : savePath ≠ "")
    (hre : readEach es ((es.map Prod.fst).filter (fun n => endsWithMd n))
      = some pairs)
    (hsort : SortsByDate dv sorter)
    (hdates : ∀ p ∈ pairs, (dv (parseLog p.1 p.2).date).isSome) :
    (getLogs sorter savePath (some es)).Perm
      (pairs.map (fun p => parseLog p.1 p.2)) ∧
    (getLogs sorter savePath (some es)).Sorted (dateDesc dv) := by
  have h1 : getLogs sorter savePath (some es) =
      sorter (pairs.map (fun p => parseLog p.1 p.2)) := by
    simp only [getLogs, hs, hre, ite_false, if_neg]
  rw [h1]
  refine ⟨hsort.1 _, ?_⟩
  have hdates' : ∀ e ∈ pairs.map (fun p => parseLog p.1 p.2),
      (dv e.date).isSome := by
    intro e he
    rw [List.mem_map] at he
    obtain ⟨p, hp, rfl⟩ := he
    exact hdates p hp
  have hsorted := hsort.2 _ hdates'
  refine hsorted.imp_of_mem ?_
  intro a b ha hb hab
  intro x y hx hy
  have hab' : (dv b.date).getD 0 ≤ (dv a.date).getD 0 := hab
  rw [hx, hy] at hab'
  simpa using hab'

/-- C9 (amended): the listing is exactly the top-level `.md` names — a
permutation under any sort engine, since a compliant sort only
reorders its input. -/
theorem c9_top_level_only (sorter : List LogEntry → List LogEntry)
    (savePath : String)
    (es : List (String × FsTree)) (pairs : List (String × String))
    (hs : savePath ≠ "")
    (hre : readEach es ((es.map Prod.fst).filter (fun n => endsWithMd n))
      = some pairs)
    (hsp : ∀ l, (sorter l).Perm l) :
    ((getLogs sorter savePath (some es)).map LogEntry.id).Perm
      ((es.map Prod.fst).filter (fun n => endsWithMd n)) := by
  have h1 : getLogs sorter savePath (some es) =
      sorter (pairs.map (fun p => parseLog p.1 p.2)) := by
    simp only [getLogs, hs, hre, ite_false, if_neg]
  rw [h1]
  have h3 := (hsp (pairs.map (fun p => parseLog p.1 p.2))).map LogEntry.id
  have h4 : (pairs.map (fun p => parseLog p.1 p.2)).map LogEntry.id =
      pairs.map Prod.fst := by
    rw [List.map_map]
    rfl
  rw [h4, readEach_names es hre] at h3
  exact h3

/-- An arbitrary concrete date valuation for concrete runs. -/
def zeroDV : String → Option Int := fun _ => some 0

/-- A concrete compliant engine for concrete runs. -/
def zeroSorter : List LogEntry → List LogEntry :=
  List.insertionSort (entryGe zeroDV)

/-- Like `dataDemo` but with a different acquisition text. -/
def dataDemoB : SaveData :=
  ⟨"2026-02-03T04:05:06.000Z", "Graphs", "25", "DFS", "", "practice"⟩

def treeAcqA : List (String × FsTree) :=
  [("a.md", FsTree.file (renderContent dataDemo))]

def treeAcqB : List (String × FsTree) :=
  [("a.md", FsTree.file (renderContent dataDemoB))]

theorem c8_no_acquisition_cx :
    getLogs zeroSorter "/logs" (some treeAcqA) =
      getLogs zeroSorter "/logs" (some treeAcqB) ∧
    dataDemo.acquisition ≠ dataDemoB.acquisition :=
  ⟨by decide, by decide⟩

theorem c8_witness :
    ("/logs" : String) ≠ "" ∧
    readEach treeAcqA
      ((treeAcqA.map Prod.fst).filter (fun n => endsWithMd n)) =
      some [("a.md", renderContent dataDemo)] ∧
    SortsByDate zeroDV zeroSorter ∧
    (∀ p ∈ [("a.md", renderContent dataDemo)],
      (zeroDV (parseLog p.1 p.2).date).isSome) ∧
    ((getLogs zeroSorter "/logs" (some treeAcqA)).Perm
      ([("a.md", renderContent dataDemo)].map (fun p => parseLog p.1 p.2)) ∧
     (getLogs zeroSorter "/logs" (some treeAcqA)).Sorted (dateDesc zeroDV)) :=
  ⟨by decide, rfl, insertionSort_sortsByDate zeroDV, by decide,
   c8_entries_and_sort zeroDV zeroSorter "/logs" treeAcqA
     [("a.md", renderContent dataDemo)] (by decide) rfl
     (insertionSort_sortsByDate zeroDV) (by decide)⟩

/-- A record file sitting inside a per-day subdirectory. -/
def nestedTree : List (String × FsTree) :=
  [("2026-02-03", FsTree.dir [("a.md", FsTree.file (renderContent dataDemo))])]

theorem c9_not_recursive_cx :
    specListAllRecords nestedTree = ["2026-02-03/a.md"] ∧
    getLogs zeroSorter "/logs" (some nestedTree) = [] := by
  constructor
  · simp only [nestedTree, specListAllRecords]
    rfl
  · decide

theorem c9_witness :
    ("/logs" : String) ≠ "" ∧
    readEach treeAcqA
      ((treeAcqA.map Prod.fst).filter (fun n => endsWithMd n)) =
      some [("a.md", renderContent dataDemo)] ∧
    (∀ l, (zeroSorter l).Perm l) ∧
    ((getLogs zeroSorter "/logs" (some treeAcqA)).map LogEntry.id).Perm
      ((treeAcqA.map Prod.fst).filter (fun n => endsWithMd n)) :=
  ⟨by decide, rfl, (insertionSort_sortsByDate zeroDV).1,
   c9_top_level_only zeroSorter "/logs" treeAcqA
     [("a.md", renderContent dataDemo)] (by decide) rfl
     (insertionSort_sortsByDate zeroDV).1⟩

/-! ## C4 and C10: parse defaults -/

/-- C4 (amended): `parseLog` is a total function — parsing never
raises — and a header field absent from the text defaults to `""` for
date, `'Unknown'` for topic and `0` for duration. -/
theorem c4_absent_field_defaults (f content : String) :
    (matchCapture dateKey content = none → (parseLog f content).date = "") ∧
    (matchCapture topicKey content = none →
      (parseLog f content).topic = "Unknown") ∧
    (matchCapture durationKey content = none →
      (parseLog f content).duration = some 0) := by
  refine ⟨fun h => ?_, fun h => ?_, fun h => ?_⟩ <;> simp [parseLog, h]

theorem c4_topic_default_cx :
    (parseLog "a.md" "").topic = "Unknown" ∧ (parseLog "a.md" "").topic ≠ "" :=
  ⟨rfl, by decide⟩

theorem c4_witness :
    (matchCapture dateKey "topic: \"T\"\nduration: \"5\"" = none ∧
     (parseLog "a.md" "topic: \"T\"\nduration: \"5\"").date = "") ∧
    (matchCapture topicKey "date: \"D\"\nduration: \"5\"" = none ∧
     (parseLog "a.md" "date: \"D\"\nduration: \"5\"").topic = "Unknown") ∧
    (matchCapture durationKey "date: \"D\"\ntopic: \"T\"" = none ∧
     (parseLog "a.md" "date: \"D\"\ntopic: \"T\"").duration = some 0) :=
  ⟨⟨rfl, (c4_absent_field_defaults "a.md" "topic: \"T\"\nduration: \"5\"").1 rfl⟩,
   ⟨rfl, (c4_absent_field_defaults "a.md" "date: \"D\"\nduration: \"5\"").2.1 rfl⟩,
   ⟨rfl, (c4_absent_field_defaults "a.md" "date: \"D\"\ntopic: \"T\"").2.2 rfl⟩⟩

/-- C10: a present duration header whose quoted value has no leading
digits parses to `NaN` (`parseInt` of a non-numeric string), which is
not the absent-header default `0`. -/
theorem c10_duration_nan :
    (parseLog "a.md" "duration: \"abc\"").duration = none ∧
    (parseLog "a.md" "duration: \"abc\"").duration ≠ some 0 ∧
    (parseLog "a.md" "no duration header here").duration = some 0 :=
  ⟨rfl, by decide, rfl⟩

end CogCommit
